import Mathlib

/-!
Verification of the metric utilities of `monai/metrics/utils.py`:
the NaN-aware metric reduction `do_metric_reduction`, the boundary
extraction `get_mask_edges`, and the surface-distance sampling
`get_surface_distance`.

Modelling choices.
A metric score tensor entry is `Option ℚ`: `Option.none` models a NaN
("undefined") entry and `some q` a defined score; after the in-place
NaN-zeroing of `do_metric_reduction` every value is an exact rational.
A score tensor is a rank-2 matrix `[batch, class]` given as a list of
rows; the reductions of the source act pointwise in any trailing axes,
so the rank-2 model captures each trailing slice.
Masks are one-dimensional voxel lists (a legitimate instance of the
N-dimensional arrays of the source).  The external numerical kernels
(`scipy` binary erosion and distance transforms, and the bounding-box
routine from `monai.transforms`, which is not part of this excerpt)
are taken as function parameters.
-/

deriving instance DecidableEq for Except

namespace MonaiMetrics

/-- A score entry of the metric tensor: `Option.none` models NaN. -/
abbrev Score := Option ℚ

/-- A score tensor with axes `[batch, class]`, as a list of batch rows. -/
abbrev ScoreMat := List (List Score)

/-- The 0/1 indicator `not_nans = (~torch.isnan(f)).float()` of
`do_metric_reduction` (utils.py lines 64-65). -/
def notNanInd (f : ScoreMat) : List (List ℚ) :=
  f.map (fun r => r.map (fun x => if x.isSome then (1 : ℚ) else 0))

/-- The in-place NaN zeroing `f[nans] = 0` (utils.py line 66): the
tensor with every NaN entry replaced by 0. -/
def zeroNans (f : ScoreMat) : List (List ℚ) :=
  f.map (fun r => r.map (fun x => x.getD 0))

/-- Sum over axis 1 (`t.sum(dim=1)` for a `[batch, class]` tensor). -/
def rowSums (m : List (List ℚ)) : List ℚ :=
  m.map List.sum

/-- Sum over axis 0 (`t.sum(dim=0)` for a `[batch, class]` tensor). -/
def colSums : List (List ℚ) → List ℚ
  | [] => []
  | [r] => r
  | r :: rs => List.zipWith (· + ·) r (colSums rs)

/-- The guarded average `torch.where(not_nans > 0, s / not_nans, t_zero)`
applied to one cell: divide the summed scores `s` by the not-nan count
`c` when the count is positive, else the zero sentinel. -/
def meanDiv (s c : ℚ) : ℚ :=
  if 0 < c then s / c else 0

/-- The final not-nan count of the `mean` policy (utils.py line 76):
`(not_nans > 0).float().sum(dim=0)` after the channel stage, i.e. the
number of batch rows with at least one non-NaN entry. -/
def meanNotNans (f : ScoreMat) : ℚ :=
  ((rowSums (notNanInd f)).map (fun c => if 0 < c then (1 : ℚ) else 0)).sum

/-- The `mean` policy (utils.py lines 71-77): channel average per batch
row with the zero guard, then the guarded batch average of the row
means.  Returns the reduced scalar and the final not-nan count. -/
def reduceMean (f : ScoreMat) : ℚ × ℚ :=
  (meanDiv (List.zipWith meanDiv (rowSums (zeroNans f)) (rowSums (notNanInd f))).sum
      (meanNotNans f),
    meanNotNans f)

/-- The `sum` policy (utils.py lines 79-81): sum over both axes. -/
def reduceSum (f : ScoreMat) : ℚ × ℚ :=
  ((rowSums (zeroNans f)).sum, (rowSums (notNanInd f)).sum)

/-- The `mean_batch` policy (utils.py lines 82-84): guarded average over
axis 0, per class. -/
def reduceMeanBatch (f : ScoreMat) : List ℚ × List ℚ :=
  (List.zipWith meanDiv (colSums (zeroNans f)) (colSums (notNanInd f)),
    colSums (notNanInd f))

/-- The `sum_batch` policy (utils.py lines 85-87): sum over axis 0. -/
def reduceSumBatch (f : ScoreMat) : List ℚ × List ℚ :=
  (colSums (zeroNans f), colSums (notNanInd f))

/-- The `mean_channel` policy (utils.py lines 88-90): guarded average
over axis 1, per batch row. -/
def reduceMeanChannel (f : ScoreMat) : List ℚ × List ℚ :=
  (List.zipWith meanDiv (rowSums (zeroNans f)) (rowSums (notNanInd f)),
    rowSums (notNanInd f))

/-- The `sum_channel` policy (utils.py lines 91-93): sum over axis 1. -/
def reduceSumChannel (f : ScoreMat) : List ℚ × List ℚ :=
  (rowSums (zeroNans f), rowSums (notNanInd f))

/-- The reduction policies, mirroring the `MetricReduction` enumeration
used by `do_metric_reduction` (its members are listed in the docstring
of utils.py lines 53-54). -/
inductive MetricReduction where
  | NONE
  | MEAN
  | SUM
  | MEAN_BATCH
  | SUM_BATCH
  | MEAN_CHANNEL
  | SUM_CHANNEL
deriving DecidableEq

/-- Modelled from the spec: the string-to-enumeration conversion
`MetricReduction(reduction)` (utils.py line 69).  The enumeration class
itself lives in `monai.utils`, outside this excerpt; its member values
are the seven policy names listed in the utils.py docstring and in the
spec, and any other string fails the conversion. -/
def MetricReduction.parse (s : String) : Option MetricReduction :=
  if s = "none" then some MetricReduction.NONE
  else if s = "mean" then some MetricReduction.MEAN
  else if s = "sum" then some MetricReduction.SUM
  else if s = "mean_batch" then some MetricReduction.MEAN_BATCH
  else if s = "sum_batch" then some MetricReduction.SUM_BATCH
  else if s = "mean_channel" then some MetricReduction.MEAN_CHANNEL
  else if s = "sum_channel" then some MetricReduction.SUM_CHANNEL
  else Option.none

/-- The reduced tensor returned by `do_metric_reduction`: the original
matrix shape (`none` policy), a vector (`*_batch` and `*_channel`
policies), or a scalar (`mean` and `sum`). -/
inductive Reduced where
  | mat : List (List ℚ) → Reduced
  | vec : List ℚ → Reduced
  | scalar : ℚ → Reduced
deriving DecidableEq

/-- The function `do_metric_reduction(f, reduction)` (utils.py lines
44-101).  The first component of the result is the caller's tensor
after the in-place NaN zeroing of line 66 (observable even when the
policy is invalid, since the zeroing precedes the conversion of line
69); the second is the `(f, not_nans)` pair, or the conversion error
for an unrecognized policy string. -/
def do_metric_reduction (f : ScoreMat) (reduction : String) :
    List (List ℚ) × Except String (Reduced × Reduced) :=
  (zeroNans f,
    match MetricReduction.parse reduction with
    | some MetricReduction.MEAN =>
        Except.ok (Reduced.scalar (reduceMean f).1, Reduced.scalar (reduceMean f).2)
    | some MetricReduction.SUM =>
        Except.ok (Reduced.scalar (reduceSum f).1, Reduced.scalar (reduceSum f).2)
    | some MetricReduction.MEAN_BATCH =>
        Except.ok (Reduced.vec (reduceMeanBatch f).1, Reduced.vec (reduceMeanBatch f).2)
    | some MetricReduction.SUM_BATCH =>
        Except.ok (Reduced.vec (reduceSumBatch f).1, Reduced.vec (reduceSumBatch f).2)
    | some MetricReduction.MEAN_CHANNEL =>
        Except.ok (Reduced.vec (reduceMeanChannel f).1, Reduced.vec (reduceMeanChannel f).2)
    | some MetricReduction.SUM_CHANNEL =>
        Except.ok (Reduced.vec (reduceSumChannel f).1, Reduced.vec (reduceSumChannel f).2)
    | some MetricReduction.NONE =>
        Except.ok (Reduced.mat (zeroNans f), Reduced.mat (notNanInd f))
    | Option.none =>
        Except.error ("Unsupported reduction: " ++ reduction))

/-- Claim C1: for the 2x2 score tensor `[[1, NaN], [3, 4]]` under policy
`"mean"`, the reduction returns the scalar `9/4 = 2.25` (row 0
channel-mean 1, row 1 channel-mean `7/2`, batch mean `9/4`) and the
returned not-nan count is `2`, the number of batch rows that contributed
at least one non-NaN entry (not the `3` total non-NaN entries); the
caller's tensor is left NaN-zeroed as `[[1, 0], [3, 4]]`. -/
theorem spec_C1 :
    do_metric_reduction [[some 1, Option.none], [some 3, some 4]] "mean" =
      ([[1, 0], [3, 4]],
        Except.ok (Reduced.scalar (9 / 4), Reduced.scalar 2)) ∧
    (9 / 4 : ℚ) = 2.25 ∧ (2 : ℚ) ≠ 3 := by
  refine ⟨?_, by norm_num, by norm_num⟩
  norm_num [do_metric_reduction, MetricReduction.parse, reduceMean, meanNotNans,
    rowSums, notNanInd, zeroNans, meanDiv]
  rfl

/-- The guarded elementwise average returns 0 at any index where the
count list holds 0. -/
lemma zipWith_meanDiv_getD_zero :
    ∀ (a b : List ℚ) (i : ℕ), i < (List.zipWith meanDiv a b).length →
      b.getD i 0 = 0 → (List.zipWith meanDiv a b).getD i 0 = 0 := by
  intro a
  induction a with
  | nil => intro b i hi _; simp at hi
  | cons x xs ih =>
    intro b i hi hb
    cases b with
    | nil => simp at hi
    | cons y ys =>
      cases i with
      | zero =>
        simp only [List.getD_cons_zero] at hb
        simp only [List.zipWith_cons_cons, List.getD_cons_zero]
        rw [hb]
        simp [meanDiv]
      | succ n =>
        simp only [List.zipWith_cons_cons, List.getD_cons_succ] at hb hi ⊢
        exact ih ys n (by simpa using hi) hb

/-- Elementwise sums of two all-zero lists are all zero. -/
lemma zipWith_add_zero :
    ∀ (a b : List ℚ), (∀ x ∈ a, x = 0) → (∀ x ∈ b, x = 0) →
      ∀ x ∈ List.zipWith (· + ·) a b, x = 0 := by
  intro a
  induction a with
  | nil => intro b _ _ x hx; simp at hx
  | cons y ys ih =>
    intro b ha hb x hx
    cases b with
    | nil => simp at hx
    | cons z zs =>
      simp only [List.zipWith_cons_cons, List.mem_cons] at hx
      rcases hx with hx | hx
      · rw [hx, ha y (by simp), hb z (by simp)]; ring
      · exact ih zs (fun t ht => ha t (by simp [ht])) (fun t ht => hb t (by simp [ht])) x hx

/-- The guarded elementwise average of anything against an all-zero
count list is all zero. -/
lemma zipWith_meanDiv_mem_zero :
    ∀ (a b : List ℚ), (∀ x ∈ b, x = 0) →
      ∀ x ∈ List.zipWith meanDiv a b, x = 0 := by
  intro a
  induction a with
  | nil => intro b _ x hx; simp at hx
  | cons y ys ih =>
    intro b hb x hx
    cases b with
    | nil => simp at hx
    | cons z zs =>
      simp only [List.zipWith_cons_cons, List.mem_cons] at hx
      rcases hx with hx | hx
      · rw [hx, hb z (by simp)]; simp [meanDiv]
      · exact ih zs (fun t ht => hb t (by simp [ht])) x hx

/-- Column sums of an all-zero matrix are all zero. -/
lemma colSums_zero (m : List (List ℚ)) (h : ∀ r ∈ m, ∀ x ∈ r, x = 0) :
    ∀ x ∈ colSums m, x = 0 := by
  induction m with
  | nil => simp [colSums]
  | cons r rs ih =>
    cases rs with
    | nil => simpa [colSums] using h r (by simp)
    | cons r2 rs2 =>
      intro x hx
      have hcol : ∀ x ∈ colSums (r2 :: rs2), x = 0 :=
        ih (fun t ht y hy => h t (by simp [ht]) y hy)
      exact zipWith_add_zero r (colSums (r2 :: rs2)) (h r (by simp)) hcol x hx

/-- An entirely-NaN score tensor has an all-zero not-nan indicator. -/
lemma notNanInd_allNaN (f : ScoreMat) (h : ∀ r ∈ f, ∀ x ∈ r, x = Option.none) :
    ∀ r ∈ notNanInd f, ∀ x ∈ r, x = 0 := by
  intro r hr x hx
  simp only [notNanInd, List.mem_map] at hr
  obtain ⟨r0, hr0, rfl⟩ := hr
  simp only [List.mem_map] at hx
  obtain ⟨x0, hx0, rfl⟩ := hx
  rw [h r0 hr0 x0 hx0]
  simp

/-- Claim C2: for every score tensor and each "mean"-family policy
(`mean`, `mean_batch`, `mean_channel`), an output cell whose
corresponding not-nan count is 0 equals 0 (the zero guard of
utils.py lines 74, 77, 84, 90); in particular an entirely-NaN tensor
under `mean_batch` reduces to an all-zero vector with all-zero
not-nan counts. -/
theorem spec_C2 (f : ScoreMat) :
    ((reduceMean f).2 = 0 → (reduceMean f).1 = 0) ∧
    (∀ i : ℕ, i < (reduceMeanBatch f).1.length →
      (reduceMeanBatch f).2.getD i 0 = 0 → (reduceMeanBatch f).1.getD i 0 = 0) ∧
    (∀ i : ℕ, i < (reduceMeanChannel f).1.length →
      (reduceMeanChannel f).2.getD i 0 = 0 → (reduceMeanChannel f).1.getD i 0 = 0) ∧
    ((∀ r ∈ f, ∀ x ∈ r, x = Option.none) →
      (∀ q ∈ (reduceMeanBatch f).1, q = 0) ∧ (∀ q ∈ (reduceMeanBatch f).2, q = 0)) := by
  refine ⟨?_, ?_, ?_, ?_⟩
  · intro h
    simp only [reduceMean] at h ⊢
    rw [h]
    simp [meanDiv]
  · intro i hi h2
    exact zipWith_meanDiv_getD_zero _ _ i hi h2
  · intro i hi h2
    exact zipWith_meanDiv_getD_zero _ _ i hi h2
  · intro hn
    have hcols : ∀ x ∈ colSums (notNanInd f), x = 0 :=
      colSums_zero _ (notNanInd_allNaN f hn)
    exact ⟨zipWith_meanDiv_mem_zero _ _ hcols, hcols⟩

/-- Witness for C2 at the entirely-NaN 1x1 tensor `[[NaN]]`: all four
zero-guard conclusions hold there concretely. -/
theorem spec_C2_witness :
    (reduceMean [[Option.none]]).1 = 0 ∧
    (reduceMeanBatch [[Option.none]]).1.getD 0 0 = 0 ∧
    (reduceMeanChannel [[Option.none]]).1.getD 0 0 = 0 ∧
    (∀ q ∈ (reduceMeanBatch [[Option.none]]).2, q = 0) := by
  have h := spec_C2 [[Option.none]]
  refine ⟨h.1 ?_, h.2.1 0 ?_ ?_, h.2.2.1 0 ?_ ?_, (h.2.2.2 (by simp)).2⟩
  · norm_num [reduceMean, meanNotNans, rowSums, notNanInd]
  · norm_num [reduceMeanBatch, colSums, zeroNans, notNanInd]
  · norm_num [reduceMeanBatch, colSums, notNanInd]
  · norm_num [reduceMeanChannel, rowSums, zeroNans, notNanInd]
  · norm_num [reduceMeanChannel, rowSums, notNanInd]

/-- NaN zeroing preserves the shape of the score tensor. -/
lemma zeroNans_map_length (f : ScoreMat) :
    (zeroNans f).map List.length = f.map List.length := by
  simp [zeroNans, List.map_map, Function.comp]

/-- NaN zeroing puts 0 at every position that held a NaN. -/
lemma zeroNans_entry (f : ScoreMat) (i j : ℕ)
    (h : (f.getD i []).getD j (some 0) = Option.none) :
    ((zeroNans f).getD i []).getD j 1 = 0 := by
  simp only [List.getD_eq_getElem?_getD] at h ⊢
  rcases h2 : f[i]? with _ | r
  · rw [h2] at h
    simp at h
  · rw [h2] at h
    simp only [Option.getD_some] at h
    rcases h3 : r[j]? with _ | x
    · rw [h3] at h
      simp at h
    · rw [h3] at h
      simp only [Option.getD_some] at h
      have hz : (zeroNans f)[i]? = some (r.map (fun y => y.getD 0)) := by
        simp [zeroNans, List.getElem?_map, h2]
      rw [hz]
      simp only [Option.getD_some, List.getElem?_map, h3, Option.map_some]
      simp [h]

/-- Claim C3: for every policy string outside the seven supported names,
`do_metric_reduction` fails with the unsupported-reduction error, and at
that moment the caller's tensor has already been NaN-zeroed (utils.py
line 66 precedes the conversion of line 69) with its shape unchanged. -/
theorem spec_C3 (f : ScoreMat) (s : String)
    (hs : s ∉ (["none", "mean", "sum", "mean_batch", "sum_batch",
      "mean_channel", "sum_channel"] : List String)) :
    (do_metric_reduction f s).2 = Except.error ("Unsupported reduction: " ++ s) ∧
    (do_metric_reduction f s).1 = zeroNans f ∧
    (do_metric_reduction f s).1.map List.length = f.map List.length ∧
    (∀ i j : ℕ, (f.getD i []).getD j (some 0) = Option.none →
      ((do_metric_reduction f s).1.getD i []).getD j 1 = 0) := by
  simp only [List.mem_cons, List.mem_singleton] at hs
  push_neg at hs
  obtain ⟨h1, h2, h3, h4, h5, h6, h7, _⟩ := hs
  have hp : MetricReduction.parse s = Option.none := by
    simp [MetricReduction.parse, h1, h2, h3, h4, h5, h6, h7]
  refine ⟨?_, rfl, zeroNans_map_length f, fun i j h => zeroNans_entry f i j h⟩
  simp [do_metric_reduction, hp]

/-- Witness for C3: the policy string `"bogus"` on the tensor `[[NaN]]`
produces the error while the tensor is already zeroed in place. -/
theorem spec_C3_witness :
    (do_metric_reduction [[Option.none]] "bogus").2 =
      Except.error ("Unsupported reduction: " ++ "bogus") ∧
    (do_metric_reduction [[Option.none]] "bogus").1.map List.length =
      ([[Option.none]] : ScoreMat).map List.length ∧
    ((do_metric_reduction [[Option.none]] "bogus").1.getD 0 []).getD 0 1 = 0 := by
  have h := spec_C3 [[Option.none]] "bogus" (by decide)
  exact ⟨h.1, h.2.2.1, h.2.2.2 0 0 rfl⟩

/-- Modelled from the spec: the single-pass joint mean over both axes
that the spec's open question contrasts with the source's two-stage
`mean` policy — the sum of all non-NaN entries divided by their count,
with the same zero guard. -/
def jointMean (f : ScoreMat) : ℚ :=
  meanDiv (rowSums (zeroNans f)).sum (rowSums (notNanInd f)).sum

/-- Claim C4: on `[[1, NaN], [3, 4]]` the two-stage `mean` policy gives
`9/4` while the single-pass joint mean gives `8/3`, so the two
embeddings are not equal as functions. -/
theorem spec_C4 :
    (reduceMean [[some 1, Option.none], [some 3, some 4]]).1 = 9 / 4 ∧
    jointMean [[some 1, Option.none], [some 3, some 4]] = 8 / 3 ∧
    (reduceMean [[some 1, Option.none], [some 3, some 4]]).1 ≠
      jointMean [[some 1, Option.none], [some 3, some 4]] := by
  have ha : (reduceMean [[some 1, Option.none], [some 3, some 4]]).1 = 9 / 4 := by
    norm_num [reduceMean, meanNotNans, rowSums, notNanInd, zeroNans, meanDiv]
  have hb : jointMean [[some 1, Option.none], [some 3, some 4]] = 8 / 3 := by
    norm_num [jointMean, rowSums, notNanInd, zeroNans, meanDiv]
  refine ⟨ha, hb, ?_⟩
  rw [ha, hb]
  norm_num

/-- Reinjection of an already-zeroed tensor as a score tensor with no
NaN entries, modelling that the float tensor returned by a first
reduction pass is fed to a second call. -/
def toScores (m : List (List ℚ)) : ScoreMat :=
  m.map (fun r => r.map some)

/-- NaN zeroing is the identity on a reinjected NaN-free tensor. -/
lemma zeroNans_toScores (m : List (List ℚ)) : zeroNans (toScores m) = m := by
  simp [zeroNans, toScores, List.map_map, Function.comp_def]

/-- The not-nan indicator of a reinjected tensor is all ones. -/
lemma notNanInd_toScores (m : List (List ℚ)) :
    notNanInd (toScores m) = m.map (fun r => r.map (fun _ => (1 : ℚ))) := by
  simp [notNanInd, toScores, List.map_map, Function.comp_def]

/-- The not-nan indicator of a NaN-free tensor is all ones. -/
lemma notNanInd_noNaN (f : ScoreMat) (h : ∀ r ∈ f, ∀ x ∈ r, x ≠ Option.none) :
    notNanInd f = f.map (fun r => r.map (fun _ => (1 : ℚ))) := by
  simp only [notNanInd]
  refine List.map_congr_left (fun r hr => ?_)
  refine List.map_congr_left (fun x hx => ?_)
  have hne := h r hr x hx
  rw [if_pos (Option.ne_none_iff_isSome.mp hne)]

/-- Counterexample to claim C5 as stated: on the tensor `[[NaN]]`,
applying the `none` policy to the result of a first `none` pass does
not reproduce the full first result — the first pass returns the NaN
indicator `[[0]]` as `not_nans`, the second pass returns `[[1]]`. -/
theorem spec_C5_cex :
    do_metric_reduction (toScores (do_metric_reduction [[Option.none]] "none").1) "none" ≠
      do_metric_reduction [[Option.none]] "none" := by
  intro h
  have h2 := congrArg (fun p => p.2) h
  simp only [do_metric_reduction, MetricReduction.parse, toScores,
    zeroNans, notNanInd] at h2
  norm_num at h2

/-- Claim C5 (amended): applying the `none` policy twice equals applying
it once on the reduced-tensor component for every input (NaN zeroing is
idempotent); the full result, `not_nans` included, is reproduced
whenever the original tensor had no NaN entry — but not in general,
since the second pass reports an all-ones indicator. -/
theorem spec_C5 (f : ScoreMat) :
    (do_metric_reduction (toScores (do_metric_reduction f "none").1) "none").1 =
      (do_metric_reduction f "none").1 ∧
    ((∀ r ∈ f, ∀ x ∈ r, x ≠ Option.none) →
      do_metric_reduction (toScores (do_metric_reduction f "none").1) "none" =
        do_metric_reduction f "none") := by
  have hsnd : ∀ g : ScoreMat, (do_metric_reduction g "none").2 =
      Except.ok (Reduced.mat (zeroNans g), Reduced.mat (notNanInd g)) := fun g => rfl
  constructor
  · exact zeroNans_toScores (zeroNans f)
  · intro hn
    have e2 : (do_metric_reduction (toScores (do_metric_reduction f "none").1) "none").2 =
        (do_metric_reduction f "none").2 := by
      have hfst : ∀ g : ScoreMat, (do_metric_reduction g "none").1 = zeroNans g :=
        fun g => rfl
      rw [hsnd, hsnd, zeroNans_toScores, notNanInd_toScores, notNanInd_noNaN f hn]
      simp [hfst, zeroNans, List.map_map, Function.comp_def]
    exact Prod.ext (zeroNans_toScores (zeroNans f)) e2

/-- Witness for C5 at the NaN-free tensor `[[1]]`: the double `none`
pass reproduces the single pass exactly. -/
theorem spec_C5_witness :
    (do_metric_reduction (toScores (do_metric_reduction [[some (1 : ℚ)]] "none").1) "none").1 =
      (do_metric_reduction [[some (1 : ℚ)]] "none").1 ∧
    do_metric_reduction (toScores (do_metric_reduction [[some (1 : ℚ)]] "none").1) "none" =
      do_metric_reduction [[some (1 : ℚ)]] "none" := by
  have h := spec_C5 [[some (1 : ℚ)]]
  exact ⟨h.1, h.2 (by simp)⟩

/-- Binarization of a labelfield mask by the equality test against
`label_idx` (utils.py lines 148-152). -/
def binz (seg : List Int) (label_idx : Int) : List Bool :=
  seg.map (fun v => v == label_idx)

/-- Modelled from the spec: `crop(mask, start, end)` returns the
sub-array within `[start, end)` — the `SpatialCrop` transform consumed
by `get_mask_edges` lives in `monai.transforms`, outside this excerpt. -/
def cropSeg (m : List Bool) (s e : ℕ) : List Bool :=
  (m.drop s).take (e - s)

/-- The function `get_mask_edges(seg_pred, seg_gt, label_idx, crop)`
(utils.py lines 104-167) on one-dimensional labelfields.  The external
kernels are parameters: `erosion` is scipy's `binary_erosion` and
`bbox` the bounding-box routine `generate_spatial_bounding_box` of
`monai.transforms` (both outside this excerpt).  Shape validation,
binarization, the empty-union short circuit, cropping, and the
erosion-XOR boundary step follow the source. -/
def get_mask_edges (erosion : List Bool → List Bool) (bbox : List Bool → ℕ × ℕ)
    (seg_pred seg_gt : List Int) (label_idx : Int) (crop : Bool) :
    Except String (List Bool × List Bool) :=
  if seg_pred.length = 0 ∨ seg_pred.length ≠ seg_gt.length then
    Except.error "Labelfields should have same shape (and non-zero number of elements)"
  else if crop then
    if (List.zipWith (· || ·) (binz seg_pred label_idx) (binz seg_gt label_idx)).any
        (fun b => b) = false then
      Except.ok ((binz seg_pred label_idx).map (fun _ => false),
        (binz seg_gt label_idx).map (fun _ => false))
    else
      Except.ok
        (List.zipWith Bool.xor
          (erosion (cropSeg (binz seg_pred label_idx)
            (bbox (List.zipWith (· || ·) (binz seg_pred label_idx) (binz seg_gt label_idx))).1
            (bbox (List.zipWith (· || ·) (binz seg_pred label_idx) (binz seg_gt label_idx))).2))
          (cropSeg (binz seg_pred label_idx)
            (bbox (List.zipWith (· || ·) (binz seg_pred label_idx) (binz seg_gt label_idx))).1
            (bbox (List.zipWith (· || ·) (binz seg_pred label_idx) (binz seg_gt label_idx))).2),
        List.zipWith Bool.xor
          (erosion (cropSeg (binz seg_gt label_idx)
            (bbox (List.zipWith (· || ·) (binz seg_pred label_idx) (binz seg_gt label_idx))).1
            (bbox (List.zipWith (· || ·) (binz seg_pred label_idx) (binz seg_gt label_idx))).2))
          (cropSeg (binz seg_gt label_idx)
            (bbox (List.zipWith (· || ·) (binz seg_pred label_idx) (binz seg_gt label_idx))).1
            (bbox (List.zipWith (· || ·) (binz seg_pred label_idx) (binz seg_gt label_idx))).2))
  else
    Except.ok
      (List.zipWith Bool.xor (erosion (binz seg_pred label_idx)) (binz seg_pred label_idx),
        List.zipWith Bool.xor (erosion (binz seg_gt label_idx)) (binz seg_gt label_idx))

/-- Claim C6: whenever the union of the two binarized masks has no true
voxel and `crop` is set, `get_mask_edges` short-circuits to two
all-false masks of the original input shape, for every label index and
independently of the erosion and bounding-box kernels (neither is
consulted). -/
theorem spec_C6 (erosion : List Bool → List Bool) (bbox : List Bool → ℕ × ℕ)
    (seg_pred seg_gt : List Int) (label_idx : Int)
    (hne : seg_pred ≠ []) (hlen : seg_pred.length = seg_gt.length)
    (hempty : (List.zipWith (· || ·) (binz seg_pred label_idx)
      (binz seg_gt label_idx)).any (fun b => b) = false) :
    get_mask_edges erosion bbox seg_pred seg_gt label_idx true =
      Except.ok (List.replicate seg_pred.length false,
        List.replicate seg_gt.length false) := by
  have hc : ¬(seg_pred.length = 0 ∨ ¬seg_pred.length = seg_gt.length) := by
    push_neg
    exact ⟨fun h0 => hne (List.length_eq_zero.mp h0), hlen⟩
  simp only [get_mask_edges]
  rw [if_neg hc, if_pos trivial, if_pos hempty]
  simp [binz]

/-- Witness for C6: two labelfields `[0]` binarized against label 1
give an empty union, and the short circuit returns all-false masks. -/
theorem spec_C6_witness :
    get_mask_edges id (fun _ => (0, 0)) [0] [0] 1 true =
      Except.ok (List.replicate 1 false, List.replicate 1 false) := by
  exact spec_C6 id (fun _ => (0, 0)) [0] [0] 1 (by simp) rfl (by decide)

/-- A true entry of an elementwise XOR comes from exactly one true
operand. -/
lemma xor_getD_cases :
    ∀ (a b : List Bool) (i : ℕ), (List.zipWith Bool.xor a b).getD i false = true →
      (a.getD i false = true ∧ b.getD i false = false) ∨
      (a.getD i false = false ∧ b.getD i false = true) := by
  intro a
  induction a with
  | nil => intro b i h; simp at h
  | cons x xs ih =>
    intro b i h
    cases b with
    | nil => simp at h
    | cons y ys =>
      cases i with
      | zero =>
        simp only [List.zipWith_cons_cons, List.getD_cons_zero] at h ⊢
        cases x <;> cases y <;> simp_all
      | succ n =>
        simp only [List.zipWith_cons_cons, List.getD_cons_succ] at h ⊢
        exact ih ys n h

/-- Claim C9: with `crop` off and valid same-shape non-empty inputs,
`get_mask_edges` returns the erosion-XOR boundaries, and each boundary
is voxelwise contained in its binarized source mask, for every erosion
kernel whose output is contained in its input. -/
theorem spec_C9 (erosion : List Bool → List Bool) (bbox : List Bool → ℕ × ℕ)
    (seg_pred seg_gt : List Int) (label_idx : Int)
    (hcont : ∀ (m : List Bool) (i : ℕ),
      (erosion m).getD i false = true → m.getD i false = true)
    (hne : seg_pred ≠ []) (hlen : seg_pred.length = seg_gt.length) :
    get_mask_edges erosion bbox seg_pred seg_gt label_idx false =
      Except.ok
        (List.zipWith Bool.xor (erosion (binz seg_pred label_idx)) (binz seg_pred label_idx),
          List.zipWith Bool.xor (erosion (binz seg_gt label_idx)) (binz seg_gt label_idx)) ∧
    (∀ i : ℕ,
      (List.zipWith Bool.xor (erosion (binz seg_pred label_idx))
        (binz seg_pred label_idx)).getD i false = true →
      (binz seg_pred label_idx).getD i false = true) ∧
    (∀ i : ℕ,
      (List.zipWith Bool.xor (erosion (binz seg_gt label_idx))
        (binz seg_gt label_idx)).getD i false = true →
      (binz seg_gt label_idx).getD i false = true) := by
  have hc : ¬(seg_pred.length = 0 ∨ ¬seg_pred.length = seg_gt.length) := by
    push_neg
    exact ⟨fun h0 => hne (List.length_eq_zero.mp h0), hlen⟩
  refine ⟨?_, ?_, ?_⟩
  · simp only [get_mask_edges]
    rw [if_neg hc]
    rfl
  · intro i h
    rcases xor_getD_cases _ _ i h with ⟨h1, h2⟩ | ⟨h1, h2⟩
    · have ht := hcont _ i h1
      rw [ht] at h2
      simp at h2
    · exact h2
  · intro i h
    rcases xor_getD_cases _ _ i h with ⟨h1, h2⟩ | ⟨h1, h2⟩
    · have ht := hcont _ i h1
      rw [ht] at h2
      simp at h2
    · exact h2

/-- Witness for C9 with the identity as a contained erosion kernel on
the labelfields `[1]` against label 1. -/
theorem spec_C9_witness :
    get_mask_edges id (fun _ => (0, 0)) [1] [1] 1 false =
      Except.ok
        (List.zipWith Bool.xor (id (binz [1] 1)) (binz [1] 1),
          List.zipWith Bool.xor (id (binz [1] 1)) (binz [1] 1)) := by
  exact (spec_C9 id (fun _ => (0, 0)) [1] [1] 1 (fun m i h => h) (by simp) rfl).1

/-- A surface distance value: a finite distance from a distance
transform, or the infinite distance assigned when the reference
boundary is empty (`np.inf`). -/
inductive DistVal where
  | fin : ℚ → DistVal
  | inf
deriving DecidableEq

/-- Boolean-mask indexing `dis[edges_pred]` of numpy: the values of
`dis` at the positions where the mask is true, in row-major order. -/
def maskSelect : List DistVal → List Bool → List DistVal
  | d :: ds, b :: bs => if b then d :: maskSelect ds bs else maskSelect ds bs
  | _, _ => []

/-- The function `get_surface_distance(edges_pred, edges_gt, label_idx,
crop, distance_metric)` (utils.py lines 170-214).  The scipy distance
transforms are parameters: `edt` is `distance_transform_edt` and `cdt`
is `distance_transform_cdt` applied to the complement of the ground
truth boundary.  The empty-prediction and empty-ground-truth short
circuits, the metric dispatch and the boolean-mask sampling follow the
source; `label_idx` and `crop` are accepted and never used, as in the
source. -/
def get_surface_distance (edt : List Bool → List DistVal)
    (cdt : List Bool → String → List DistVal)
    (edges_pred edges_gt : List Bool) (label_idx : Int) (crop : Bool)
    (distance_metric : String) : Except String (List DistVal) :=
  if edges_pred.any (fun b => b) = false then Except.ok []
  else if edges_gt.any (fun b => b) = false then
    Except.ok (maskSelect (edges_gt.map (fun _ => DistVal.inf)) edges_pred)
  else if distance_metric = "euclidean" then
    Except.ok (maskSelect (edt (edges_gt.map (fun b => !b))) edges_pred)
  else if distance_metric = "chessboard" ∨ distance_metric = "taxicab" then
    Except.ok (maskSelect (cdt (edges_gt.map (fun b => !b)) distance_metric) edges_pred)
  else
    Except.error ("distance_metric " ++ distance_metric ++ " is not implemented.")

/-- Sampling a constant-infinity field at a same-length mask yields one
infinity per true voxel of the mask. -/
lemma maskSelect_replicate_inf :
    ∀ (p : List Bool) (n : ℕ), p.length = n →
      maskSelect (List.replicate n DistVal.inf) p =
        List.replicate (p.countP (fun b => b)) DistVal.inf := by
  intro p
  induction p with
  | nil =>
    intro n h
    simp only [List.length_nil] at h
    subst h
    simp [maskSelect]
  | cons b bs ih =>
    intro n h
    cases n with
    | zero => simp at h
    | succ m =>
      have hlen : bs.length = m := by simpa using h
      cases b with
      | true => simp [maskSelect, List.replicate_succ, List.countP_cons, ih m hlen]
      | false => simp [maskSelect, List.replicate_succ, List.countP_cons, ih m hlen]

/-- Claim C7: an empty prediction boundary yields an empty sample, and
a non-empty prediction boundary against an empty ground-truth boundary
yields one infinite distance per true voxel of the prediction
boundary. -/
theorem spec_C7 (edt : List Bool → List DistVal)
    (cdt : List Bool → String → List DistVal)
    (edges_pred edges_gt : List Bool) (label_idx : Int) (crop : Bool)
    (distance_metric : String) (hlen : edges_pred.length = edges_gt.length) :
    (edges_pred.any (fun b => b) = false →
      get_surface_distance edt cdt edges_pred edges_gt label_idx crop distance_metric =
        Except.ok []) ∧
    (edges_pred.any (fun b => b) = true → edges_gt.any (fun b => b) = false →
      get_surface_distance edt cdt edges_pred edges_gt label_idx crop distance_metric =
        Except.ok (List.replicate (edges_pred.countP (fun b => b)) DistVal.inf)) := by
  constructor
  · intro h
    simp [get_surface_distance, h]
  · intro hp hg
    simp [get_surface_distance, hp, hg,
      maskSelect_replicate_inf edges_pred edges_gt.length hlen]

/-- Witness for C7: the empty-prediction case on `[false]` and the
empty-ground-truth case on prediction `[true]`. -/
theorem spec_C7_witness :
    get_surface_distance (fun _ => []) (fun _ _ => []) [false] [false] 0 true "euclidean" =
      Except.ok [] ∧
    get_surface_distance (fun _ => []) (fun _ _ => []) [true] [false] 0 true "euclidean" =
      Except.ok (List.replicate 1 DistVal.inf) := by
  constructor
  · exact (spec_C7 (fun _ => []) (fun _ _ => []) [false] [false] 0 true "euclidean" rfl).1 rfl
  · exact (spec_C7 (fun _ => []) (fun _ _ => []) [true] [false] 0 true "euclidean" rfl).2 rfl rfl

/-- Counterexample to claim C8 as stated: with an all-false prediction
boundary, the unrecognized metric `"bogus"` does not fail — the
empty-prediction short circuit returns the empty sample before the
metric is examined. -/
theorem spec_C8_cex :
    get_surface_distance (fun _ => []) (fun _ _ => []) [false] [false] 0 true "bogus" =
      Except.ok [] := by
  rfl

/-- Claim C8 (amended): for boundary masks that each contain at least
one true voxel, every distance metric outside `euclidean`,
`chessboard`, `taxicab` makes `get_surface_distance` fail with the
unsupported-metric error; with an empty prediction or empty ground
truth boundary the short circuits answer first. -/
theorem spec_C8 (edt : List Bool → List DistVal)
    (cdt : List Bool → String → List DistVal)
    (edges_pred edges_gt : List Bool) (label_idx : Int) (crop : Bool)
    (distance_metric : String)
    (hp : edges_pred.any (fun b => b) = true)
    (hg : edges_gt.any (fun b => b) = true)
    (hm : distance_metric ∉ (["euclidean", "chessboard", "taxicab"] : List String)) :
    get_surface_distance edt cdt edges_pred edges_gt label_idx crop distance_metric =
      Except.error ("distance_metric " ++ distance_metric ++ " is not implemented.") := by
  simp only [List.mem_cons, List.mem_singleton] at hm
  push_neg at hm
  obtain ⟨h1, h2, h3⟩ := hm
  simp [get_surface_distance, hp, hg, h1, h2, h3]

/-- Witness for C8 at non-empty boundaries `[true]` and the metric
string `"bogus"`. -/
theorem spec_C8_witness :
    get_surface_distance (fun _ => []) (fun _ _ => []) [true] [true] 0 true "bogus" =
      Except.error ("distance_metric " ++ "bogus" ++ " is not implemented.") := by
  exact spec_C8 (fun _ => []) (fun _ _ => []) [true] [true] 0 true "bogus" rfl rfl (by decide)

/-- Claim C10: the result of `get_surface_distance` does not depend on
the `label_idx` and `crop` arguments — any two calls differing only in
those values agree, for every pair of boundary masks, every metric
string and every pair of distance-transform kernels. -/
theorem spec_C10 (edt : List Bool → List DistVal)
    (cdt : List Bool → String → List DistVal)
    (edges_pred edges_gt : List Bool) (distance_metric : String)
    (idx1 idx2 : Int) (crop1 crop2 : Bool) :
    get_surface_distance edt cdt edges_pred edges_gt idx1 crop1 distance_metric =
      get_surface_distance edt cdt edges_pred edges_gt idx2 crop2 distance_metric := by
  rfl

end MonaiMetrics
